import Mathlib

/-!
# Verification of the sipdashboard extraction pipeline and dashboard

Shallow embedding of the sipdashboard repository: the table-reconciliation
state machine, the goal assembler, the normalization cache / classifier client
and the output writer (all modelled from the specification, since only the
dashboard sources ship with the repository), together with the dashboard
logic embedded from `SIPDashboard.jsx` and `dashboard/src/App.jsx`.
-/

namespace SipDashboard

/-! ## String utilities (whitespace normalization, case-insensitive matching) -/

/-- `leadsWith needle hay`: the character list `hay` starts with `needle`. -/
def leadsWith : List Char → List Char → Bool
  | [], _ => true
  | _ :: _, [] => false
  | n :: ns, h :: hs => decide (n = h) && leadsWith ns hs

/-- `occursIn needle hay`: `needle` occurs as a contiguous run inside the
character list `hay`. -/
def occursIn (needle : List Char) : List Char → Bool
  | [] => needle.isEmpty
  | h :: t => leadsWith needle (h :: t) || occursIn needle t

/-- Split a character list into its maximal whitespace-free words. -/
def wsWordsL (s : List Char) : List (List Char) :=
  (s.foldr
    (fun c acc =>
      if c.isWhitespace then [] :: acc
      else
        match acc with
        | [] => [[c]]
        | w :: ws => (c :: w) :: ws)
    []).filter (fun w => w ≠ [])

/-- The maximal whitespace-free words of a string. -/
def wsWords (s : String) : List String :=
  (wsWordsL s.data).map String.mk

/-- Join a list of texts by single spaces. -/
def joinSpace : List String → String
  | [] => ""
  | [a] => a
  | a :: rest => a ++ " " ++ joinSpace rest

/-- Collapse repeated whitespace: the whitespace-free words of `s` joined by
single spaces. -/
def collapseWS (s : String) : String :=
  joinSpace (wsWords s)

/-- Merge a pre-break cell text and a post-break cell text: concatenation
joined by a single space with repeated whitespace collapsed. -/
def mergeCells (a b : String) : String :=
  collapseWS (a ++ " " ++ b)

/-- Case-insensitive substring test: `needle` occurs inside `hay` ignoring
letter case. -/
def containsCI (hay needle : String) : Bool :=
  occursIn (needle.data.map Char.toLower) (hay.data.map Char.toLower)

/-- A cell is empty when it holds only whitespace. -/
def cellEmpty (s : String) : Bool :=
  s.data.all Char.isWhitespace

/-! ## Table Reconciler data model

Modelled from the spec: the Table Reconciler of extract_sips.py is not part
of the shipped sources (only the dashboard is), so its data model and state
machine are taken from the specification (sections 3 and 4.1). -/

/-- A table row: an ordered sequence of cell texts. -/
abbrev Row := List String

/-- Modelled from the spec: a RawTableBlock produced by the external page
grid provider, `{page_number, rows}`. -/
structure RawTableBlock where
  page_number : Nat
  rows : List Row
deriving DecidableEq, Repr

/-- Row role: recognizes the outer-table header row by the label
"Priority Area" (case-insensitive substring matching against the fixed
label set). -/
def isHeaderRow (row : Row) : Bool :=
  match row.head? with
  | some c => containsCI c "Priority Area"
  | none => false

/-- Row role: the Sentinel (engagement-strategies) row closing a GoalRowSet;
case-insensitive substring match against the label "Engagement Strategies". -/
def isSentinel (row : Row) : Bool :=
  row.any (fun c => containsCI c "Engagement Strategies")

/-- Row role: start of the embedded Action/Measure sub-table, carrying both
the "Action" and the "Measure of Fidelity" labels. -/
def isEmbeddedStart (row : Row) : Bool :=
  row.any (fun c => containsCI c "Action") &&
    row.any (fun c => containsCI c "Measure of Fidelity")

/-- Scenario 2a detection: on a continuation page, a split row is a two-cell
row where exactly one of the first and second cells is empty. -/
def isSplitRow (row : Row) : Bool :=
  match row with
  | [a, b] => (cellEmpty a && !cellEmpty b) || (!cellEmpty a && cellEmpty b)
  | _ => false

/-- Merge the non-empty cells of a continuation-page split row into the
corresponding cells of the previous-page row, preserving field order. -/
def mergeRows : Row → Row → Row
  | [], cs => cs
  | ps, [] => ps
  | p :: ps, c :: cs =>
      (if cellEmpty c then p else mergeCells p c) :: mergeRows ps cs

/-- The states of the reconciler state machine (section 4.1). -/
inductive Mode where
  | seekingHeader
  | inOuterTable
  | inEmbeddedTable
  | continuationPending
deriving DecidableEq, Repr

/-- The reconciler state: current mode, the rows accumulated for the open
GoalRowSet, and the closed GoalRowSets in order. -/
structure RecState where
  mode : Mode
  current : List Row
  closed : List (List Row)
deriving DecidableEq, Repr

/-- Close the open GoalRowSet with the sentinel row appended and return to
header seeking. -/
def closeWith (st : RecState) (row : Row) : RecState :=
  { mode := Mode.seekingHeader
    current := []
    closed := st.closed ++ [st.current ++ [row]] }

/-- Modelled from the spec: one row transition of the Table Reconciler state
machine (section 4.1), including the Scenario 2a split-row merge performed on
the first row after a page break. -/
def rowStep (st : RecState) (row : Row) : RecState :=
  match st.mode with
  | Mode.seekingHeader =>
      if isHeaderRow row then
        { st with mode := Mode.inOuterTable, current := [row] }
      else st
  | Mode.inOuterTable =>
      if isSentinel row then closeWith st row
      else if isEmbeddedStart row then
        { st with mode := Mode.inEmbeddedTable, current := st.current ++ [row] }
      else { st with current := st.current ++ [row] }
  | Mode.inEmbeddedTable =>
      if isSentinel row then closeWith st row
      else { st with current := st.current ++ [row] }
  | Mode.continuationPending =>
      if isSentinel row then closeWith st row
      else if isSplitRow row then
        { st with mode := Mode.inEmbeddedTable
                  current := st.current.dropLast ++ [mergeRows (st.current.getLastD []) row] }
      else { st with mode := Mode.inEmbeddedTable, current := st.current ++ [row] }

/-- Process one page: fold the row transition over the page rows; if the
embedded table is still open at the bottom of the page it may resume on the
next page (CONTINUATION_PENDING). -/
def pageStep (st : RecState) (rows : List Row) : RecState :=
  let st1 := rows.foldl rowStep st
  if st1.mode = Mode.inEmbeddedTable then
    { st1 with mode := Mode.continuationPending }
  else st1

/-- The rows of a page, in top-to-bottom block order. -/
def pageRows (blocks : List RawTableBlock) : List Row :=
  (blocks.map RawTableBlock.rows).flatten

/-- The inclusive page range of a unit, 1-indexed. -/
def pageRange (startP endP : Nat) : List Nat :=
  (List.range (endP + 1 - startP)).map (fun i => startP + i)

/-- Run the reconciler state machine over the pages of a unit page range. -/
def reconcileCore (startP endP : Nat) (provider : Nat → List RawTableBlock) : RecState :=
  (pageRange startP endP).foldl
    (fun st p => pageStep st (pageRows (provider p)))
    { mode := Mode.seekingHeader, current := [], closed := [] }

/-- The structural warning logged when a GoalRowSet is force-closed by page
range exhaustion. -/
def exhaustionWarning : String :=
  "structural warning: goal row set force-closed at page range exhaustion"

/-- Modelled from the spec: `reconcile(unit_page_range, grid_provider)`
(section 4.1) returning the ordered closed GoalRowSets and the logged
warnings; a GoalRowSet still open when the range is exhausted is force-closed
and kept with a structural warning. -/
def reconcile (startP endP : Nat) (provider : Nat → List RawTableBlock) :
    List (List Row) × List String :=
  let st := reconcileCore startP endP provider
  if st.current.isEmpty then (st.closed, [])
  else (st.closed ++ [st.current], [exhaustionWarning])

/-! ## Goal Assembler data model

Modelled from the spec: the Goal Assembler (section 4.2) of extract_sips.py
is not part of the shipped sources; its record types follow section 3 and the
structured output format documented in the repository README. -/

/-- The fixed goal area enumeration. -/
inductive Area where
  | math
  | ela
  | sel
  | science
  | ninthGradeSuccess
  | graduation
  | other
deriving DecidableEq, Repr

/-- The display text of an area, as it appears in the outputs. -/
def areaText : Area → String
  | Area.math => "Math"
  | Area.ela => "ELA"
  | Area.sel => "SEL"
  | Area.science => "Science"
  | Area.ninthGradeSuccess => "9th Grade Success"
  | Area.graduation => "Graduation"
  | Area.other => "Other"

/-- Modelled from the spec: the deterministic string-to-enum table mapping
the raw Priority Area text to the area enumeration, defaulting to Other. -/
def areaOfText (t : String) : Area :=
  if containsCI t "Math" then Area.math
  else if containsCI t "ELA" then Area.ela
  else if containsCI t "SEL" then Area.sel
  else if containsCI t "Science" then Area.science
  else if containsCI t "9th Grade" then Area.ninthGradeSuccess
  else if containsCI t "Graduation" then Area.graduation
  else Area.other

/-- A strategy row of the embedded table: `{action, measures}`. -/
structure Strategy where
  action : String
  measures : String
deriving DecidableEq, Repr

/-- A canonical goal record (section 3). -/
structure GoalRecord where
  area : Area
  focus_grades : String
  focus_student_group : String
  focus_area : String
  focus_group : String
  outcome : String
  currentdata : String
  strategies : List Strategy
  strategies_summarized : String
  engagement_strategies : String
deriving DecidableEq, Repr

/-- A school record: name, level and the goals in document order. -/
structure SchoolRecord where
  name : String
  level : String
  goals : List GoalRecord
deriving DecidableEq, Repr

/-- A unit index entry together with its level string derived from the index
bucket that contained it. -/
structure UnitInput where
  name : String
  level : String
  startPage : Nat
  endPage : Nat
deriving DecidableEq, Repr

/-- Extract a labeled field: scan the rows for a matching leading label and
take the remainder of that row (with whitespace collapsed) as the value. -/
def extractField (label : String) (rows : List Row) : String :=
  match rows.find? (fun r =>
      match r.head? with
      | some c => containsCI c label
      | none => false) with
  | some r => collapseWS (joinSpace r.tail)
  | none => ""

/-- A row every cell of which is blank. -/
def rowBlank (r : Row) : Bool :=
  r.all cellEmpty

/-- The rows following the embedded-table start row. -/
def afterEmbeddedStart : List Row → List Row
  | [] => []
  | r :: rs => if isEmbeddedStart r then rs else afterEmbeddedStart rs

/-- Extract the embedded table rows as Strategy pairs, skipping rows that
are entirely blank and the sentinel row. -/
def strategiesOf (rows : List Row) : List Strategy :=
  ((afterEmbeddedStart rows).filter
      (fun r => !rowBlank r && !isSentinel r)).map
    (fun r => { action := r.getD 0 "", measures := r.getD 1 "" })

/-- Modelled from the spec: assemble a single GoalRowSet into a GoalRecord
(section 4.2). The classifier-derived fields (`focus_grades`,
`focus_student_group`, `strategies_summarized`) are left blank; the
Normalization step fills them. -/
def assembleGoal (rows : List Row) : GoalRecord :=
  { area := areaOfText (extractField "Priority Area" rows)
    focus_grades := ""
    focus_student_group := ""
    focus_area := extractField "Focus Area" rows
    focus_group := extractField "Focus Group" rows
    outcome := extractField "Outcome" rows
    currentdata := extractField "Current Data" rows
    strategies := strategiesOf rows
    strategies_summarized := ""
    engagement_strategies := extractField "Engagement Strategies" rows }

/-- The warning logged when a unit yields fewer than three goals. -/
def fewGoalsWarning (n : Nat) : String :=
  "only found " ++ toString n ++ " goals"

/-- Modelled from the spec: `assemble(unit, row-sets)` (section 4.2).
Exactly the first 3 closed GoalRowSets become GoalRecords; a unit producing
fewer than 3 is recorded as-is with a logged "only found N goals" warning. -/
def assemble (u : UnitInput) (rowsets : List (List Row)) :
    SchoolRecord × List String :=
  let goals := (rowsets.take 3).map assembleGoal
  let warns :=
    if rowsets.length < 3 then [fewGoalsWarning rowsets.length] else []
  ({ name := u.name, level := u.level, goals := goals }, warns)

/-- Extraction of one unit: reconcile its page range, then assemble the
resulting GoalRowSets into the raw (pre-normalization) SchoolRecord. -/
def extractSchool (u : UnitInput) (provider : Nat → List RawTableBlock) :
    SchoolRecord :=
  (assemble u (reconcile u.startPage u.endPage provider).1).1

/-! ## Normalization Cache & Classifier Client

Modelled from the spec: ai_helper.py is not part of the shipped sources; the
contracts follow section 4.3. The outcome of the single external classifier
call, when one would be made, is passed in explicitly (`Except.error` stands
for any failure: timeout, quota, malformed response); each function returns
its value together with the number of network calls it makes. -/

/-- The composite fingerprint keying the normalization cache:
`(unit_name, raw focus_group text, raw focus_area text, raw outcome text)`. -/
abbrev Fp := String × String × String × String

/-- The normalization cache: fingerprint-keyed entries valued
`(focus_grades, focus_student_group)`, in append order. -/
abbrev NormCache := List (Fp × (String × String))

/-- The strategy-summary cache, keyed by the strategy list. -/
abbrev SummCache := List (List Strategy × String)

/-- First-match association lookup. -/
def lookupA {α β : Type} [DecidableEq α] (k : α) : List (α × β) → Option β
  | [] => none
  | (a, b) :: t => if a = k then some b else lookupA k t

/-- The fixed default tuple returned on cache miss without network, and on
any classifier failure. -/
def defaultTuple : String × String :=
  ("All Grades", "All Students")

/-- Modelled from the spec: `normalize_focus_group` (section 4.3). Cache hit
returns the cached tuple with no network call regardless of `allow_network`;
cache miss with `allow_network` false returns the fixed defaults; otherwise
the classifier is called once and any failure falls back to the defaults. -/
def normalize_focus_group (cache : NormCache)
    (unit_name focus_group_text focus_area_text outcome_text : String)
    (allow_network : Bool) (classifierResult : Except Unit (String × String)) :
    (String × String) × Nat :=
  match lookupA (unit_name, focus_group_text, focus_area_text, outcome_text) cache with
  | some v => (v, 0)
  | none =>
      if allow_network then
        match classifierResult with
        | Except.ok v => (v, 1)
        | Except.error _ => (defaultTuple, 1)
      else (defaultTuple, 0)

/-- Join a list of texts by semicolons. -/
def joinSemicolons : List String → String
  | [] => ""
  | [a] => a
  | a :: rest => a ++ "; " ++ joinSemicolons rest

/-- The fallback strategy summary: plain concatenation of each action text
joined by semicolons. -/
def fallbackSummary (strategies : List Strategy) : String :=
  joinSemicolons (strategies.map Strategy.action)

/-- Modelled from the spec: `summarize_strategies` (section 4.3), with the
same cache-first-then-classifier-then-fallback policy as
`normalize_focus_group`. -/
def summarize_strategies (cache : SummCache) (strategies : List Strategy)
    (allow_network : Bool) (classifierResult : Except Unit String) :
    String × Nat :=
  match lookupA strategies cache with
  | some v => (v, 0)
  | none =>
      if allow_network then
        match classifierResult with
        | Except.ok v => (v, 1)
        | Except.error _ => (fallbackSummary strategies, 1)
      else (fallbackSummary strategies, 0)

/-- The fingerprint of a goal under its unit name. -/
def fpOf (unit_name : String) (g : GoalRecord) : Fp :=
  (unit_name, g.focus_group, g.focus_area, g.outcome)

/-- Fill the classifier-derived fields of a goal record. -/
def refill (g : GoalRecord) (grades group summ : String) : GoalRecord :=
  { g with
      focus_grades := grades
      focus_student_group := group
      strategies_summarized := summ }

/-- Normalize one goal: resolve its fingerprint and its strategy summary
through the caches (cache-first), appending newly resolved entries
(append-only within a run), and count the classifier calls made. -/
def normalizeGoalStep (nc : NormCache) (sc : SummCache) (unit_name : String)
    (allow_network : Bool) (oN : Fp → Except Unit (String × String))
    (oS : List Strategy → Except Unit String) (g : GoalRecord) :
    GoalRecord × NormCache × SummCache × Nat :=
  let fp := fpOf unit_name g
  let r1 := normalize_focus_group nc unit_name g.focus_group g.focus_area
    g.outcome allow_network (oN fp)
  let nc' :=
    match lookupA fp nc with
    | some _ => nc
    | none => nc ++ [(fp, r1.1)]
  let r2 := summarize_strategies sc g.strategies allow_network (oS g.strategies)
  let sc' :=
    match lookupA g.strategies sc with
    | some _ => sc
    | none => sc ++ [(g.strategies, r2.1)]
  (refill g r1.1.1 r1.1.2 r2.1, nc', sc', r1.2 + r2.2)

/-- Normalize the goals of one unit in order, threading the caches. -/
def normalizeGoals (nc : NormCache) (sc : SummCache) (unit_name : String)
    (allow_network : Bool) (oN : Fp → Except Unit (String × String))
    (oS : List Strategy → Except Unit String) :
    List GoalRecord → List GoalRecord × NormCache × SummCache × Nat
  | [] => ([], nc, sc, 0)
  | g :: gs =>
      let s := normalizeGoalStep nc sc unit_name allow_network oN oS g
      let rest := normalizeGoals s.2.1 s.2.2.1 unit_name allow_network oN oS gs
      (s.1 :: rest.1, rest.2.1, rest.2.2.1, s.2.2.2 + rest.2.2.2)

/-- Modelled from the spec: one full extraction run over the unit index:
reconcile and assemble each unit, then fill the classifier-derived fields
through the normalization caches, counting all classifier calls. -/
def runUnits (nc : NormCache) (sc : SummCache) (allow_network : Bool)
    (oN : Fp → Except Unit (String × String))
    (oS : List Strategy → Except Unit String)
    (provider : Nat → List RawTableBlock) :
    List UnitInput → List SchoolRecord × NormCache × SummCache × Nat
  | [] => ([], nc, sc, 0)
  | u :: us =>
      let raw := extractSchool u provider
      let r := normalizeGoals nc sc u.name allow_network oN oS raw.goals
      let rest := runUnits r.2.1 r.2.2.1 allow_network oN oS provider us
      ({ raw with goals := r.1 } :: rest.1, rest.2.1, rest.2.2.1,
        r.2.2.2 + rest.2.2.2)

/-- Rebuild the normalization cache from a previous run persisted
SchoolRecords (section 3): one entry per goal, keyed by its fingerprint. -/
def buildNormCache : List SchoolRecord → NormCache
  | [] => []
  | s :: rest =>
      s.goals.map (fun g => (fpOf s.name g, (g.focus_grades, g.focus_student_group)))
        ++ buildNormCache rest

/-- Rebuild the strategy-summary cache from persisted SchoolRecords. -/
def buildSummCache : List SchoolRecord → SummCache
  | [] => []
  | s :: rest =>
      s.goals.map (fun g => (g.strategies, g.strategies_summarized))
        ++ buildSummCache rest

/-! ## Output Writer

Modelled from the spec: the Output Writer (sections 4.4 and 6) of
extract_sips.py is not part of the shipped sources; its two artifacts follow
the fixed shapes given in section 6. -/

/-- One serialized strategy field of the structured output. -/
def strategyStructured (st : Strategy) : String :=
  "(action:" ++ st.action ++ ";measures:" ++ st.measures ++ ")"

/-- One serialized goal of the structured output. -/
def goalStructured (g : GoalRecord) : String :=
  "(area:" ++ areaText g.area
    ++ ";focus_grades:" ++ g.focus_grades
    ++ ";focus_student_group:" ++ g.focus_student_group
    ++ ";focus_area:" ++ g.focus_area
    ++ ";focus_group:" ++ g.focus_group
    ++ ";outcome:" ++ g.outcome
    ++ ";currentdata:" ++ g.currentdata
    ++ ";strategies:[" ++ ",".intercalate (g.strategies.map strategyStructured)
    ++ "];strategies_summarized:" ++ g.strategies_summarized
    ++ ";engagement_strategies:" ++ g.engagement_strategies ++ ")"

/-- The structured output artifact: the serialized school records, grouped
by school, nested goals, full fidelity. -/
def structuredOutput (schools : List SchoolRecord) : String :=
  "[" ++ ",".intercalate (schools.map (fun s =>
    "(name:" ++ s.name ++ ";level:" ++ s.level
      ++ ";goals:[" ++ ",".intercalate (s.goals.map goalStructured) ++ "])"))
    ++ "]"

/-- The attribution anchor line opening every flattened goal block:
`School: <name> (<level>)`. -/
def schoolLine (s : SchoolRecord) : String :=
  "School: " ++ s.name ++ " (" ++ s.level ++ ")\n"

/-- The lines of one strategy inside a flattened goal block. -/
def strategyLines (st : Strategy) : String :=
  " * Action: " ++ st.action ++ "\n   Measures: " ++ st.measures ++ "\n"

/-- The body of a flattened goal block: everything below the attribution
line (section 6, flattened output). -/
def goalBody (n : Nat) (g : GoalRecord) : String :=
  "Goal #" ++ toString n ++ " (" ++ areaText g.area ++ ", "
    ++ g.focus_grades ++ ", " ++ g.focus_student_group ++ "): "
    ++ g.outcome ++ "\n"
    ++ "Focus Area: " ++ g.focus_area ++ "\n"
    ++ "Current Data: " ++ g.currentdata ++ "\n"
    ++ "Strategies:\n"
    ++ String.join (g.strategies.map strategyLines)

/-- One self-contained flattened goal block with its goal number, opening
with the owning school attribution line (section 6, flattened output). -/
def goalBlock (s : SchoolRecord) (n : Nat) (g : GoalRecord) : String :=
  schoolLine s ++ goalBody n g

/-- Number the goal blocks of a school from a starting goal number. -/
def numberBlocks (s : SchoolRecord) : Nat → List GoalRecord → List String
  | _, [] => []
  | n, g :: gs => goalBlock s n g :: numberBlocks s (n + 1) gs

/-- The flattened goal blocks of one school, numbered from 1. -/
def schoolBlocks (s : SchoolRecord) : List String :=
  numberBlocks s 1 s.goals

/-- The flattened output artifact: every goal block of every school, blocks
separated by a blank line. -/
def flattenedOutput (schools : List SchoolRecord) : String :=
  String.join (schools.map (fun s =>
    String.join ((schoolBlocks s).map (fun b => b ++ "\n"))))

/-! ## Dashboard embedding (from src/SIPDashboard.jsx and
src/dashboard/src/App.jsx) -/

/-- A chat message as stored by the dashboard, `{role, content}`. -/
structure ChatMsg where
  role : String
  content : String
deriving DecidableEq, Repr

/-- The outcome of the request a chat handler makes: a successful response
carrying the extracted assistant text when one was found, or a thrown error,
flagged as a network-level error (`Failed to fetch` / `TypeError`) or not. -/
inductive ChatOutcome where
  | success (assistantText : Option String)
  | failure (isNetworkError : Bool)
deriving DecidableEq, Repr

/-- JavaScript `||` on a possibly-absent string: the default replaces both
an absent and an empty (falsy) value. -/
def jsOrDefault (s : Option String) (d : String) : String :=
  match s with
  | none => d
  | some t => if t = "" then d else t

/-- The fixed attribution-rules instruction text of the system prompt built
by `handleChat` in SIPDashboard.jsx. -/
def sipAttributionRulesText : String :=
  "You are an expert analyst helping a school board director review School Improvement Plans (SIPs).\n\nCRITICAL ATTRIBUTION RULES — follow these exactly every time:\n1. The data is a structured text file where each goal is its own chunk. Every chunk begins with a \"School:\" line that states the school name. That line is the authoritative source for which school a goal belongs to.\n2. When answering questions, always read the \"School:\" line of each chunk before citing it. Use that school name verbatim.\n3. Never transfer information from one school to another. If you are not 100% certain which school a piece of information belongs to, say so explicitly rather than guessing.\n4. When listing schools that share a characteristic, verify each school independently by checking its \"School:\" line before including it in your answer.\n5. If you cannot find information for a specific school or goal, say \"I could not find that information\" rather than substituting data from another school.\n\nRESPONSE STYLE:\n- Be concise and accurate.\n- When listing multiple schools, use a bulleted list with the school name bolded.\n- Always cite the relevant goal area (ELA, Math, SEL, etc.) alongside the school name."

/-- The fixed preamble of the cached data block of the system prompt built
by `handleChat` in SIPDashboard.jsx. -/
def sipDataPreambleText : String :=
  "Here is the complete School Improvement Plan data. It is a structured text file where each goal is represented by a chunk of text. Each chunk begins with a \"School:\" line identifying the school, followed by the goal number, area, grades, and student group, then the outcome, focus area, current data, strategies, and engagement strategies.\n\n"

/-- The two system-prompt text blocks built by `handleChat` in
SIPDashboard.jsx: the attribution rules, then the data block from the loaded
structured text (with the placeholder when none is loaded). -/
def sipSystemPromptTexts (txtContext : Option String) : List String :=
  [sipAttributionRulesText,
   sipDataPreambleText
     ++ jsOrDefault txtContext "No structured text data loaded. Please update data."]

/-- The body of the classifier request built by `handleChat` in
SIPDashboard.jsx: the system prompt blocks and the full conversation
history with the new user message appended. -/
structure ChatRequest where
  system : List String
  messages : List ChatMsg
deriving DecidableEq, Repr

/-- `handleChat` of SIPDashboard.jsx: the request sent to the classifier,
built from the loaded structured text, the stored conversation and the new
user question. -/
def sipBuildChatRequest (txtContext : Option String)
    (chatMessages : List ChatMsg) (userMessage : String) : ChatRequest :=
  { system := sipSystemPromptTexts txtContext
    messages :=
      (chatMessages ++ [({ role := "user", content := userMessage } : ChatMsg)]).map
        (fun (m : ChatMsg) => ({ role := m.role, content := m.content } : ChatMsg)) }

/-- The generic chat error message shared by both dashboard variants. -/
def genericChatErrorText : String :=
  "Sorry, I encountered an error processing your request."

/-- The CORS explanation shown by SIPDashboard.jsx when the request fails at
the network level. -/
def sipCorsErrorText : String :=
  "⚠️ The Anthropic API cannot be called directly from browsers due to CORS restrictions.\n\nTo enable chat, you need a backend proxy server. All other features (tables, charts, search, export) work normally!\n\nContact your developer for setup help."

/-- The fallback assistant text chosen by the catch branch of `handleChat`
in SIPDashboard.jsx. -/
def sipErrorMsg (isNetworkError : Bool) : String :=
  if isNetworkError then sipCorsErrorText else genericChatErrorText

/-- `handleChat` of SIPDashboard.jsx: the chat message list after the
request settles. The new user message is appended first; then either the
assistant response or, in the catch branch, the fallback assistant message
is appended. -/
def sipHandleChatMessages (chatMessages : List ChatMsg) (userMessage : String)
    (outcome : ChatOutcome) : List ChatMsg :=
  let newMessages := chatMessages ++ [{ role := "user", content := userMessage }]
  match outcome with
  | ChatOutcome.success t =>
      newMessages
        ++ [{ role := "assistant",
              content := t.getD "Unable to process request." }]
  | ChatOutcome.failure isNet =>
      newMessages ++ [{ role := "assistant", content := sipErrorMsg isNet }]

/-- The server-unreachable message shown by dashboard/src/App.jsx when the
request fails at the network level. -/
def appServerErrorText : String :=
  "⚠️ Could not reach the API server. Please check that the server is running and try again."

/-- The fallback assistant text chosen by the catch branch of `handleChat`
in dashboard/src/App.jsx. -/
def appErrorMsg (isNetworkError : Bool) : String :=
  if isNetworkError then appServerErrorText else genericChatErrorText

/-- `handleChat` of dashboard/src/App.jsx: the chat message list after the
request settles. -/
def appHandleChatMessages (chatMessages : List ChatMsg) (userMessage : String)
    (outcome : ChatOutcome) : List ChatMsg :=
  let newMessages := chatMessages ++ [{ role := "user", content := userMessage }]
  match outcome with
  | ChatOutcome.success t =>
      newMessages
        ++ [{ role := "assistant",
              content := t.getD "Unable to process request." }]
  | ChatOutcome.failure isNet =>
      newMessages ++ [{ role := "assistant", content := appErrorMsg isNet }]

/-- The "Total Goals" statistic displayed by the dashboard
(`schools.length * 3` in both SIPDashboard.jsx and dashboard/src/App.jsx). -/
def totalGoalsDisplayed (schools : List SchoolRecord) : Nat :=
  schools.length * 3

/-- The true total number of goals held by the loaded schools. -/
def totalGoalsActual (schools : List SchoolRecord) : Nat :=
  (schools.map (fun s => s.goals.length)).sum

/-! ## Concrete example data used by the witnesses -/

/-- A goal record with the given area and blank text fields. -/
def exGoal (a : Area) : GoalRecord :=
  { area := a, focus_grades := "", focus_student_group := "", focus_area := "",
    focus_group := "", outcome := "", currentdata := "", strategies := [],
    strategies_summarized := "", engagement_strategies := "" }

/-- An example school with the full three goals. -/
def exSchoolA : SchoolRecord :=
  { name := "A", level := "Elementary School",
    goals := [exGoal Area.math, exGoal Area.ela, exGoal Area.sel] }

/-- An example school with only two goals. -/
def exSchoolB : SchoolRecord :=
  { name := "B", level := "High School",
    goals := [exGoal Area.math, exGoal Area.other] }

/-! ## Theorems -/

/-- Claim C9: across any two classifier calls made with the same loaded structured
text data, the instruction text sent to the classifier is identical: the
system prompt built by `handleChat` in SIPDashboard.jsx does not depend on
the user question or the conversation history, and its instruction prefix is
the fixed attribution-rules constant. -/
theorem sip_system_prompt_stable :
    ∀ (txt : Option String) (h1 h2 : List ChatMsg) (q1 q2 : String),
      (sipBuildChatRequest txt h1 q1).system = (sipBuildChatRequest txt h2 q2).system
      ∧ (sipBuildChatRequest txt h1 q1).system.headD "" = sipAttributionRulesText := by
  intro txt h1 h2 q1 q2
  exact ⟨rfl, rfl⟩

/-- Claim C5: every classifier failure is recovered locally: on a cache miss,
`normalize_focus_group` turns any classifier failure into the fixed default
tuple, and the catch branches of both `handleChat` implementations append a
fallback assistant message after the new user message, preserving the whole
conversation accumulated so far. -/
theorem classifier_failure_recovered :
    ∀ (cache : NormCache) (un fg fa oc : String) (e : Unit)
      (history : List ChatMsg) (q : String) (isNet : Bool),
      lookupA (un, fg, fa, oc) cache = none →
      (normalize_focus_group cache un fg fa oc true (Except.error e)).1 = defaultTuple
      ∧ sipHandleChatMessages history q (ChatOutcome.failure isNet)
          = (history ++ [{ role := "user", content := q }])
            ++ [{ role := "assistant", content := sipErrorMsg isNet }]
      ∧ appHandleChatMessages history q (ChatOutcome.failure isNet)
          = (history ++ [{ role := "user", content := q }])
            ++ [{ role := "assistant", content := appErrorMsg isNet }]
      ∧ (∃ t, sipHandleChatMessages history q (ChatOutcome.failure isNet) = history ++ t)
      ∧ (∃ t, appHandleChatMessages history q (ChatOutcome.failure isNet) = history ++ t) := by
  intro cache un fg fa oc e history q isNet hmiss
  refine ⟨?_, rfl, rfl, ?_, ?_⟩
  · simp [normalize_focus_group, hmiss]
  · exact ⟨[{ role := "user", content := q },
            { role := "assistant", content := sipErrorMsg isNet }],
      by simp [sipHandleChatMessages]⟩
  · exact ⟨[{ role := "user", content := q },
            { role := "assistant", content := appErrorMsg isNet }],
      by simp [appHandleChatMessages]⟩

/-- Witness for C5 at a concrete cache, fingerprint and conversation. -/
theorem classifier_failure_recovered_witness :
    (normalize_focus_group [] "Lincoln Elementary" "K-5" "Math" "Increase scores"
        true (Except.error ())).1 = defaultTuple
    ∧ sipHandleChatMessages [{ role := "user", content := "hello" }] "Which schools?"
        (ChatOutcome.failure true)
        = ([{ role := "user", content := "hello" }]
            ++ [{ role := "user", content := "Which schools?" }])
          ++ [{ role := "assistant", content := sipErrorMsg true }]
    ∧ appHandleChatMessages [{ role := "user", content := "hello" }] "Which schools?"
        (ChatOutcome.failure true)
        = ([{ role := "user", content := "hello" }]
            ++ [{ role := "user", content := "Which schools?" }])
          ++ [{ role := "assistant", content := appErrorMsg true }]
    ∧ (∃ t, sipHandleChatMessages [{ role := "user", content := "hello" }] "Which schools?"
        (ChatOutcome.failure true) = [{ role := "user", content := "hello" }] ++ t)
    ∧ (∃ t, appHandleChatMessages [{ role := "user", content := "hello" }] "Which schools?"
        (ChatOutcome.failure true) = [{ role := "user", content := "hello" }] ++ t) :=
  classifier_failure_recovered [] "Lincoln Elementary" "K-5" "Math" "Increase scores"
    () [{ role := "user", content := "hello" }] "Which schools?" true rfl

/-- When every school holds at most 3 goals, the hardcoded `3 * count`
statistic agrees with the true goal total exactly when every school holds
exactly 3 goals. -/
theorem totalGoals_eq_iff (schools : List SchoolRecord)
    (hcap : ∀ s ∈ schools, s.goals.length ≤ 3) :
    3 * schools.length = totalGoalsActual schools
      ↔ ∀ s ∈ schools, s.goals.length = 3 := by
  induction schools with
  | nil => simp [totalGoalsActual]
  | cons s rest ih =>
      have hs : s.goals.length ≤ 3 := hcap s (List.mem_cons_self s rest)
      have hrest : ∀ x ∈ rest, x.goals.length ≤ 3 :=
        fun x hx => hcap x (List.mem_cons_of_mem s hx)
      have hsum : totalGoalsActual rest ≤ 3 * rest.length := by
        clear ih hcap hs
        induction rest with
        | nil => simp [totalGoalsActual]
        | cons y t iht =>
            have hy := hrest y (List.mem_cons_self y t)
            have ht := iht fun x hx => hrest x (List.mem_cons_of_mem y hx)
            simp only [totalGoalsActual, List.map_cons, List.sum_cons,
              List.length_cons] at *
            omega
      have hact : totalGoalsActual (s :: rest)
          = s.goals.length + totalGoalsActual rest := by
        simp [totalGoalsActual]
      rw [List.length_cons, hact]
      constructor
      · intro h
        have h3 : s.goals.length = 3 ∧ 3 * rest.length = totalGoalsActual rest := by
          omega
        intro x hx
        rcases List.mem_cons.1 hx with hx | hx
        · rw [hx]; exact h3.1
        · exact ((ih hrest).1 h3.2) x hx
      · intro h
        have h1 : s.goals.length = 3 := h s (List.mem_cons_self s rest)
        have h2 : 3 * rest.length = totalGoalsActual rest :=
          (ih hrest).2 fun x hx => h x (List.mem_cons_of_mem s hx)
        omega

/-- Claim C10: the dashboard "Total Goals" statistic is `3 * (number of schools)`
independently of the actual goal counts, and it equals the true total number
of goals exactly when every loaded school has exactly 3 goals. -/
theorem total_goals_displayed_spec (schools : List SchoolRecord)
    (hcap : ∀ s ∈ schools, s.goals.length ≤ 3) :
    totalGoalsDisplayed schools = 3 * schools.length
    ∧ (totalGoalsDisplayed schools = totalGoalsActual schools
        ↔ ∀ s ∈ schools, s.goals.length = 3) := by
  constructor
  · simp [totalGoalsDisplayed, Nat.mul_comm]
  · rw [show totalGoalsDisplayed schools = 3 * schools.length by
      simp [totalGoalsDisplayed, Nat.mul_comm]]
    exact totalGoals_eq_iff schools hcap

/-- Witness for C10: two schools, one with 3 goals and one with only 2; the
displayed statistic is 6 while the true total is 5. -/
theorem total_goals_displayed_spec_witness :
    totalGoalsDisplayed [exSchoolA, exSchoolB] = 3 * 2
    ∧ (totalGoalsDisplayed [exSchoolA, exSchoolB]
          = totalGoalsActual [exSchoolA, exSchoolB]
        ↔ ∀ s ∈ [exSchoolA, exSchoolB], s.goals.length = 3) :=
  total_goals_displayed_spec [exSchoolA, exSchoolB] (by decide)

/-- Claim C1: the assembler takes exactly the first 3 closed GoalRowSets of a unit
as its GoalRecords, so a SchoolRecord never holds more than 3 goals; a unit
yielding fewer than 3 closed GoalRowSets is recorded as-is together with the
logged "only found N goals" warning, and the run does not fail. -/
theorem assemble_goal_cap :
    ∀ (u : UnitInput) (rowsets : List (List Row)),
      (assemble u rowsets).1.goals = (rowsets.take 3).map assembleGoal
      ∧ (assemble u rowsets).1.goals.length = min rowsets.length 3
      ∧ (assemble u rowsets).1.goals.length ≤ 3
      ∧ (rowsets.length < 3 →
          (assemble u rowsets).1.goals.length = rowsets.length
          ∧ (assemble u rowsets).2 = [fewGoalsWarning rowsets.length])
      ∧ (3 ≤ rowsets.length → (assemble u rowsets).2 = []) := by
  intro u rowsets
  refine ⟨rfl, ?_, ?_, ?_, ?_⟩
  · simp [assemble, List.length_take, Nat.min_comm]
  · simp [assemble, List.length_take]
  · intro h
    constructor
    · simp [assemble, List.length_take]
      omega
    · simp [assemble, if_pos h]
  · intro h
    simp [assemble]
    omega

/-- Witness for C1: a unit with only 2 closed GoalRowSets is assembled into
a SchoolRecord with exactly 2 goals plus the logged warning. -/
theorem assemble_goal_cap_witness :
    (assemble { name := "Lincoln Elementary", level := "Elementary School",
                startPage := 9, endPage := 16 }
        [[["Priority Area", "Math"]], [["Priority Area", "ELA"]]]).1.goals.length = 2
    ∧ (assemble { name := "Lincoln Elementary", level := "Elementary School",
                  startPage := 9, endPage := 16 }
        [[["Priority Area", "Math"]], [["Priority Area", "ELA"]]]).2
      = [fewGoalsWarning 2] :=
  (assemble_goal_cap
    { name := "Lincoln Elementary", level := "Elementary School",
      startPage := 9, endPage := 16 }
    [[["Priority Area", "Math"]], [["Priority Area", "ELA"]]]).2.2.2.1 (by decide)

/-- Claim C2: `normalize_focus_group` is deterministic whenever no network call is
made: a cache hit returns the cached tuple with zero classifier calls
whatever `allow_network` and whatever the classifier would have answered; a
cache miss with `allow_network` false returns exactly the fixed defaults with
zero calls; and with `allow_network` false the result never depends on the
classifier circumstances. -/
theorem normalize_focus_group_deterministic :
    ∀ (cache : NormCache) (un fg fa oc : String),
      (∀ v, lookupA (un, fg, fa, oc) cache = some v →
        ∀ (anet : Bool) (res : Except Unit (String × String)),
          normalize_focus_group cache un fg fa oc anet res = (v, 0))
      ∧ (lookupA (un, fg, fa, oc) cache = none →
          ∀ res, normalize_focus_group cache un fg fa oc false res
            = (defaultTuple, 0))
      ∧ (∀ res1 res2,
          normalize_focus_group cache un fg fa oc false res1
            = normalize_focus_group cache un fg fa oc false res2) := by
  intro cache un fg fa oc
  refine ⟨?_, ?_, ?_⟩
  · intro v hv anet res
    simp [normalize_focus_group, hv]
  · intro h res
    simp [normalize_focus_group, h]
  · intro res1 res2
    cases h : lookupA (un, fg, fa, oc) cache with
    | none => simp [normalize_focus_group, h]
    | some v => simp [normalize_focus_group, h]

/-- Witness for C2 at a concrete warm cache entry and a concrete miss. -/
theorem normalize_focus_group_deterministic_witness :
    normalize_focus_group
        [(("Lincoln Elementary", "K-5", "Math", "Increase scores"),
          ("Grades 3-5", "ML"))]
        "Lincoln Elementary" "K-5" "Math" "Increase scores" true
        (Except.error ())
      = (("Grades 3-5", "ML"), 0)
    ∧ normalize_focus_group [] "Lincoln Elementary" "K-5" "Math"
        "Increase scores" false (Except.ok ("Grade 2", "Low Income"))
      = (defaultTuple, 0) :=
  ⟨(normalize_focus_group_deterministic
      [(("Lincoln Elementary", "K-5", "Math", "Increase scores"),
        ("Grades 3-5", "ML"))]
      "Lincoln Elementary" "K-5" "Math" "Increase scores").1
      ("Grades 3-5", "ML") (by decide) true (Except.error ()),
   (normalize_focus_group_deterministic [] "Lincoln Elementary" "K-5" "Math"
      "Increase scores").2.1 rfl (Except.ok ("Grade 2", "Low Income"))⟩

/-- A semicolon join is non-empty as soon as one joined text is non-empty. -/
theorem joinSemicolons_ne_empty :
    ∀ (l : List String), (∃ x ∈ l, x ≠ "") → joinSemicolons l ≠ "" := by
  intro l
  induction l with
  | nil => rintro ⟨x, hx, -⟩; cases hx
  | cons a t ih =>
      rintro ⟨x, hx, hne⟩
      cases t with
      | nil =>
          rcases List.mem_singleton.1 hx with rfl
          simpa [joinSemicolons] using hne
      | cons b t2 =>
          show a ++ "; " ++ joinSemicolons (b :: t2) ≠ ""
          intro hcontra
          have : (a ++ "; " ++ joinSemicolons (b :: t2)).length = 0 := by
            rw [hcontra]; rfl
          simp [String.length_append] at this
          exact absurd this.1.2 (by decide)

/-- Claim C8 counterexample: a non-empty strategy list whose single action text is
blank makes the fallback path of `summarize_strategies` return the empty
string, refuting "its result is never the empty string". -/
theorem summarize_fallback_empty_counterexample :
    ([({ action := "", measures := "review usage" } : Strategy)]
        ≠ ([] : List Strategy))
    ∧ (summarize_strategies [] [{ action := "", measures := "review usage" }]
        false (Except.error ())).1 = ""
    ∧ (summarize_strategies [] [{ action := "", measures := "review usage" }]
        true (Except.error ())).1 = "" := by
  refine ⟨by decide, rfl, rfl⟩

/-- Claim C8, amended: on classifier failure, or with network disabled and a
cache miss, `summarize_strategies` returns the plain concatenation of the
action texts joined by semicolons; that fallback is non-empty whenever at
least one strategy has a non-empty action text. -/
theorem summarize_fallback_join :
    ∀ (cache : SummCache) (strategies : List Strategy) (e : Unit)
      (res : Except Unit String),
      strategies ≠ [] →
      lookupA strategies cache = none →
      (summarize_strategies cache strategies false res).1
          = fallbackSummary strategies
      ∧ (summarize_strategies cache strategies true (Except.error e)).1
          = fallbackSummary strategies
      ∧ fallbackSummary strategies
          = joinSemicolons (strategies.map Strategy.action)
      ∧ ((∃ st ∈ strategies, st.action ≠ "") →
          fallbackSummary strategies ≠ "") := by
  intro cache strategies e res _ hmiss
  refine ⟨?_, ?_, rfl, ?_⟩
  · simp [summarize_strategies, hmiss]
  · simp [summarize_strategies, hmiss]
  · rintro ⟨st, hst, hne⟩
    exact joinSemicolons_ne_empty (strategies.map Strategy.action)
      ⟨st.action, List.mem_map_of_mem Strategy.action hst, hne⟩

/-- Witness for C8 (amended) at a concrete two-strategy list. -/
theorem summarize_fallback_join_witness :
    (summarize_strategies []
        [{ action := "Tutoring", measures := "weekly check" },
         { action := "Family night", measures := "sign-in sheet" }]
        false (Except.ok "ignored")).1
      = fallbackSummary
          [{ action := "Tutoring", measures := "weekly check" },
           { action := "Family night", measures := "sign-in sheet" }]
    ∧ fallbackSummary
        [{ action := "Tutoring", measures := "weekly check" },
         { action := "Family night", measures := "sign-in sheet" }] ≠ "" := by
  have h := summarize_fallback_join []
    [{ action := "Tutoring", measures := "weekly check" },
     { action := "Family night", measures := "sign-in sheet" }]
    () (Except.ok "ignored") (by decide) rfl
  exact ⟨h.1, h.2.2.2 ⟨{ action := "Tutoring", measures := "weekly check" },
    List.mem_cons_self _ _, by decide⟩⟩

/-- The goal blocks of a school: as many blocks as goals, each opening with
the owning school attribution line. -/
theorem numberBlocks_length_and_line :
    ∀ (s : SchoolRecord) (gs : List GoalRecord) (n : Nat),
      (numberBlocks s n gs).length = gs.length
      ∧ ∀ b ∈ numberBlocks s n gs, ∃ rest, b = schoolLine s ++ rest := by
  intro s gs
  induction gs with
  | nil => intro n; exact ⟨rfl, by intro b hb; cases hb⟩
  | cons g t ih =>
      intro n
      refine ⟨by simp [numberBlocks, (ih (n + 1)).1], ?_⟩
      intro b hb
      rcases List.mem_cons.1 hb with rfl | hb
      · exact ⟨goalBody n g, rfl⟩
      · exact (ih (n + 1)).2 b hb

/-- Claim C7: each flattened goal block of a school opens with the
`School: <name> (<level>)` line of exactly the SchoolRecord it was derived
from; there is one block per goal (the line is never deduplicated away) and
the line is identical across all blocks of one school; the flattened output
is the concatenation of precisely these blocks. -/
theorem flattened_attribution :
    ∀ (s : SchoolRecord),
      (schoolBlocks s).length = s.goals.length
      ∧ (∀ b ∈ schoolBlocks s, ∃ rest, b = schoolLine s ++ rest)
      ∧ flattenedOutput [s]
          = String.join ((schoolBlocks s).map (fun b => b ++ "\n")) := by
  intro s
  refine ⟨(numberBlocks_length_and_line s s.goals 1).1,
          (numberBlocks_length_and_line s s.goals 1).2, ?_⟩
  simp [flattenedOutput, String.join]

/-- Witness for C7 at a concrete school: its first flattened block starts
with its own attribution line. -/
theorem flattened_attribution_witness :
    ∃ rest, goalBlock exSchoolB 1 (exGoal Area.math)
      = schoolLine exSchoolB ++ rest :=
  (flattened_attribution exSchoolB).2.1
    (goalBlock exSchoolB 1 (exGoal Area.math))
    (by simp [schoolBlocks, numberBlocks, exSchoolB])

/-- Claim C4: when the page range of a unit is exhausted while a GoalRowSet is
still open, the reconciler force-closes it: the accumulated rows are kept as
the last GoalRowSet of the output, a structural warning is logged, and no
error is raised (the reconciler is a total function). -/
theorem reconcile_force_close :
    ∀ (startP endP : Nat) (provider : Nat → List RawTableBlock),
      (reconcileCore startP endP provider).current ≠ [] →
      reconcile startP endP provider
        = ((reconcileCore startP endP provider).closed
            ++ [(reconcileCore startP endP provider).current],
           [exhaustionWarning])
      ∧ (reconcileCore startP endP provider).current
          ∈ (reconcile startP endP provider).1 := by
  intro startP endP provider hopen
  have hne : (reconcileCore startP endP provider).current.isEmpty = false :=
    by simpa [List.isEmpty_iff] using hopen
  constructor
  · simp [reconcile, hne]
  · simp [reconcile, hne]

/-- Witness for C4: a single page holding a header row and a data row but no
sentinel leaves the GoalRowSet open; it is force-closed and kept, with the
structural warning logged. -/
theorem reconcile_force_close_witness :
    reconcile 1 1 (fun p =>
        if p = 1 then
          [{ page_number := 1,
             rows := [["Priority Area", "Math"], ["Outcome", "Improve scores"]] }]
        else [])
      = ([[["Priority Area", "Math"], ["Outcome", "Improve scores"]]],
         [exhaustionWarning])
    ∧ [["Priority Area", "Math"], ["Outcome", "Improve scores"]]
        ∈ (reconcile 1 1 (fun p =>
            if p = 1 then
              [{ page_number := 1,
                 rows := [["Priority Area", "Math"], ["Outcome", "Improve scores"]] }]
            else [])).1 := by
  have h := reconcile_force_close 1 1 (fun p =>
      if p = 1 then
        [{ page_number := 1,
           rows := [["Priority Area", "Math"], ["Outcome", "Improve scores"]] }]
      else []) (by decide)
  refine ⟨?_, ?_⟩
  · rw [h.1]
    decide
  · have hcur : (reconcileCore 1 1 (fun p =>
        if p = 1 then
          [{ page_number := 1,
             rows := [["Priority Area", "Math"], ["Outcome", "Improve scores"]] }]
        else [])).current
      = [["Priority Area", "Math"], ["Outcome", "Improve scores"]] := by decide
    exact hcur ▸ h.2

/-- Claim C3: a Scenario 2a split row (first or second cell empty on the
continuation page) is merged by the reconciler into the previous page row:
the merged field is the concatenation of the pre-break and post-break cell
text joined by a single space with repeated whitespace collapsed, in
original order, and no extra row is created (each closed GoalRowSet holds
exactly the four logical rows). -/
theorem reconcile_split_row_merge :
    ∀ (pre post : String),
      containsCI pre "Engagement Strategies" = false →
      containsCI post "Engagement Strategies" = false →
      cellEmpty post = false →
      (reconcile 1 2 (fun p =>
          if p = 1 then
            [{ page_number := 1,
               rows := [["Priority Area", "Math"],
                        ["Action", "Measure of Fidelity"],
                        ["Provide tutoring", pre]] }]
          else if p = 2 then
            [{ page_number := 2,
               rows := [["", post],
                        ["Engagement Strategies", "Family night"]] }]
          else [])
        = ([[["Priority Area", "Math"],
             ["Action", "Measure of Fidelity"],
             ["Provide tutoring", mergeCells pre post],
             ["Engagement Strategies", "Family night"]]], []))
      ∧ (reconcile 1 2 (fun p =>
          if p = 1 then
            [{ page_number := 1,
               rows := [["Priority Area", "Math"],
                        ["Action", "Measure of Fidelity"],
                        [pre, "weekly check"]] }]
          else if p = 2 then
            [{ page_number := 2,
               rows := [[post, ""],
                        ["Engagement Strategies", "Family night"]] }]
          else [])
        = ([[["Priority Area", "Math"],
             ["Action", "Measure of Fidelity"],
             [mergeCells pre post, "weekly check"],
             ["Engagement Strategies", "Family night"]]], []))
      ∧ mergeCells pre post = collapseWS (pre ++ " " ++ post) := by
  intro pre post h1 h2 h3
  have c1 : isHeaderRow ["Priority Area", "Math"] = true := by decide
  have c2 : isSentinel ["Action", "Measure of Fidelity"] = false := by decide
  have c3 : isEmbeddedStart ["Action", "Measure of Fidelity"] = true := by decide
  have c4 : containsCI "Provide tutoring" "Engagement Strategies" = false := by
    decide
  have c5 : containsCI "" "Engagement Strategies" = false := by decide
  have c6 : cellEmpty "" = true := by decide
  have c7 : isSentinel ["Engagement Strategies", "Family night"] = true := by
    decide
  have c8 : containsCI "weekly check" "Engagement Strategies" = false := by
    decide
  have hr : pageRange 1 2 = [1, 2] := by decide
  refine ⟨?_, ?_, rfl⟩
  · have s3 : isSentinel ["Provide tutoring", pre] = false := by
      simp [isSentinel, c4, h1]
    have s4 : isSentinel ["", post] = false := by
      simp [isSentinel, c5, h2]
    have s5 : isSplitRow ["", post] = true := by
      simp [isSplitRow, c6, h3]
    simp [reconcile, reconcileCore, hr, pageRows, pageStep, rowStep, closeWith,
      mergeRows, c1, c2, c3, s3, s4, s5, c6, c7, h3]
  · have s3 : isSentinel [pre, "weekly check"] = false := by
      simp [isSentinel, c8, h1]
    have s4 : isSentinel [post, ""] = false := by
      simp [isSentinel, c5, h2]
    have s5 : isSplitRow [post, ""] = true := by
      simp [isSplitRow, c6, h3]
    simp [reconcile, reconcileCore, hr, pageRows, pageStep, rowStep, closeWith,
      mergeRows, c1, c2, c3, s3, s4, s5, c6, c7, h3]

set_option maxRecDepth 8192 in
/-- Witness for C3 at concrete pre-break and post-break texts (the pre-break
text carries a repeated internal whitespace that the merge collapses). -/
theorem reconcile_split_row_merge_witness :
    (reconcile 1 2 (fun p =>
        if p = 1 then
          [{ page_number := 1,
             rows := [["Priority Area", "Math"],
                      ["Action", "Measure of Fidelity"],
                      ["Provide tutoring", "improve  reading"]] }]
        else if p = 2 then
          [{ page_number := 2,
             rows := [["", "scores by ten percent"],
                      ["Engagement Strategies", "Family night"]] }]
        else [])
      = ([[["Priority Area", "Math"],
           ["Action", "Measure of Fidelity"],
           ["Provide tutoring", mergeCells "improve  reading" "scores by ten percent"],
           ["Engagement Strategies", "Family night"]]], []))
    ∧ (reconcile 1 2 (fun p =>
        if p = 1 then
          [{ page_number := 1,
             rows := [["Priority Area", "Math"],
                      ["Action", "Measure of Fidelity"],
                      ["improve  reading", "weekly check"]] }]
        else if p = 2 then
          [{ page_number := 2,
             rows := [["scores by ten percent", ""],
                      ["Engagement Strategies", "Family night"]] }]
        else [])
      = ([[["Priority Area", "Math"],
           ["Action", "Measure of Fidelity"],
           [mergeCells "improve  reading" "scores by ten percent", "weekly check"],
           ["Engagement Strategies", "Family night"]]], []))
    ∧ mergeCells "improve  reading" "scores by ten percent"
        = collapseWS ("improve  reading" ++ " " ++ "scores by ten percent") :=
  reconcile_split_row_merge "improve  reading" "scores by ten percent"
    (by decide) (by decide) (by decide)

/-- A lookup that succeeds in the front part of an appended cache still
returns the same value. -/
theorem lookupA_append_of_some {α β : Type} [DecidableEq α] (k : α)
    (l l2 : List (α × β)) (v : β) (h : lookupA k l = some v) :
    lookupA k (l ++ l2) = some v := by
  induction l with
  | nil => simp [lookupA] at h
  | cons p t ih =>
      rcases p with ⟨a, b⟩
      by_cases ha : a = k
      · simpa [lookupA, ha] using h
      · rw [List.cons_append]
        simp only [lookupA, if_neg ha] at h ⊢
        exact ih h

/-- A lookup that misses the front part of an appended cache falls through
to the appended part. -/
theorem lookupA_append_of_none {α β : Type} [DecidableEq α] (k : α)
    (l l2 : List (α × β)) (h : lookupA k l = none) :
    lookupA k (l ++ l2) = lookupA k l2 := by
  induction l with
  | nil => simp
  | cons p t ih =>
      rcases p with ⟨a, b⟩
      by_cases ha : a = k
      · simp [lookupA, ha] at h
      · rw [List.cons_append]
        simp only [lookupA, if_neg ha] at h ⊢
        exact ih h

/-- In a cache all of whose entries agree with one fixed valuation, a lookup
at any stored key returns the stored value, even in the presence of
duplicate keys. -/
theorem lookupA_of_consistent {α β : Type} [DecidableEq α]
    (F : α → Option β) :
    ∀ (entries : List (α × β)),
      (∀ p ∈ entries, F p.1 = some p.2) →
      ∀ p ∈ entries, lookupA p.1 entries = some p.2 := by
  intro entries
  induction entries with
  | nil => intro _ p hp; cases hp
  | cons q t ih =>
      intro hcons p hp
      rcases q with ⟨a, b⟩
      rcases List.mem_cons.1 hp with rfl | hp'
      · simp [lookupA]
      · rcases p with ⟨pk, pv⟩
        by_cases ha : a = pk
        · have h1 : F a = some b := hcons (a, b) (List.mem_cons_self _ _)
          have h2 : F pk = some pv :=
            hcons (pk, pv) (List.mem_cons_of_mem _ hp')
          rw [ha] at h1
          rw [h1] at h2
          simp only [lookupA, if_pos ha]
          exact h2
        · simp only [lookupA, if_neg ha]
          exact ih (fun r hr => hcons r (List.mem_cons_of_mem _ hr)) (pk, pv) hp'

/-- From a pointwise relation, each member of the right list has a related
left partner. -/
theorem forall2_exists_left {α β : Type} {P : α → β → Prop} :
    ∀ {l1 : List α} {l2 : List β}, List.Forall₂ P l1 l2 →
      ∀ b ∈ l2, ∃ a, P a b := by
  intro l1 l2 h
  induction h with
  | nil => intro b hb; cases hb
  | cons hab _ ih =>
      intro b hb
      rcases List.mem_cons.1 hb with rfl | hb'
      · exact ⟨_, hab⟩
      · exact ih b hb'

/-- Strengthen a pointwise relation using extra knowledge available for the
members of an enclosing list. -/
theorem forall2_imp_mem {α β : Type} {P Q : α → β → Prop} {L : List β} :
    ∀ {l1 : List α} {l2 : List β}, List.Forall₂ P l1 l2 →
      (∀ b ∈ l2, b ∈ L) →
      (∀ a b, P a b → b ∈ L → Q a b) →
      List.Forall₂ Q l1 l2 := by
  intro l1 l2 h
  induction h with
  | nil => intro _ _; exact List.Forall₂.nil
  | cons hab htail ih =>
      intro hmem himp
      exact List.Forall₂.cons
        (himp _ _ hab (hmem _ (List.mem_cons_self _ _)))
        (ih (fun b hb => hmem b (List.mem_cons_of_mem _ hb)) himp)

/-- Membership characterization of the rebuilt normalization cache: its
entries are exactly the fingerprinted goals of the persisted records. -/
theorem mem_buildNormCache {p : Fp × (String × String)} :
    ∀ {schools : List SchoolRecord},
      p ∈ buildNormCache schools ↔
      ∃ s ∈ schools, ∃ g ∈ s.goals,
        p = (fpOf s.name g, (g.focus_grades, g.focus_student_group)) := by
  intro schools
  induction schools with
  | nil => simp [buildNormCache]
  | cons s rest ih =>
      simp only [buildNormCache, List.mem_append, List.mem_map, ih,
        List.mem_cons]
      constructor
      · rintro (⟨g, hg, rfl⟩ | ⟨s', hs', g, hg, rfl⟩)
        · exact ⟨s, Or.inl rfl, g, hg, rfl⟩
        · exact ⟨s', Or.inr hs', g, hg, rfl⟩
      · rintro ⟨s', hs' | hs', g, hg, rfl⟩
        · subst hs'
          exact Or.inl ⟨g, hg, rfl⟩
        · exact Or.inr ⟨s', hs', g, hg, rfl⟩

/-- Membership characterization of the rebuilt summary cache. -/
theorem mem_buildSummCache {p : List Strategy × String} :
    ∀ {schools : List SchoolRecord},
      p ∈ buildSummCache schools ↔
      ∃ s ∈ schools, ∃ g ∈ s.goals,
        p = (g.strategies, g.strategies_summarized) := by
  intro schools
  induction schools with
  | nil => simp [buildSummCache]
  | cons s rest ih =>
      simp only [buildSummCache, List.mem_append, List.mem_map, ih,
        List.mem_cons]
      constructor
      · rintro (⟨g, hg, rfl⟩ | ⟨s', hs', g, hg, rfl⟩)
        · exact ⟨s, Or.inl rfl, g, hg, rfl⟩
        · exact ⟨s', Or.inr hs', g, hg, rfl⟩
      · rintro ⟨s', hs' | hs', g, hg, rfl⟩
        · subst hs'
          exact Or.inl ⟨g, hg, rfl⟩
        · exact Or.inr ⟨s', hs', g, hg, rfl⟩

/-- Filling classifier-derived fields leaves the fingerprint unchanged. -/
theorem fpOf_refill (un : String) (g : GoalRecord) (a b t : String) :
    fpOf un (refill g a b t) = fpOf un g := rfl

/-- One normalization step only appends to the caches: previously resolvable
lookups keep their values. -/
theorem normalizeGoalStep_mono (nc : NormCache) (sc : SummCache)
    (un : String) (anet : Bool) (oN : Fp → Except Unit (String × String))
    (oS : List Strategy → Except Unit String) (g : GoalRecord) :
    (∀ (k : Fp) (v : String × String), lookupA k nc = some v →
      lookupA k (normalizeGoalStep nc sc un anet oN oS g).2.1 = some v)
    ∧ (∀ (k : List Strategy) (v : String), lookupA k sc = some v →
      lookupA k (normalizeGoalStep nc sc un anet oN oS g).2.2.1 = some v) := by
  constructor
  · intro k v hv
    cases h : lookupA (fpOf un g) nc with
    | some w => simpa [normalizeGoalStep, h] using hv
    | none =>
        simp only [normalizeGoalStep, h]
        exact lookupA_append_of_some _ _ _ _ hv
  · intro k v hv
    cases h : lookupA g.strategies sc with
    | some w => simpa [normalizeGoalStep, h] using hv
    | none =>
        simp only [normalizeGoalStep, h]
        exact lookupA_append_of_some _ _ _ _ hv

/-- After one normalization step, the caches resolve the goal fingerprint
and strategy key to exactly the values stored in the produced record, and
the produced record is the raw record with only the classifier-derived
fields filled. -/
theorem normalizeGoalStep_covers (nc : NormCache) (sc : SummCache)
    (un : String) (anet : Bool) (oN : Fp → Except Unit (String × String))
    (oS : List Strategy → Except Unit String) (g : GoalRecord) :
    (∃ a b t, (normalizeGoalStep nc sc un anet oN oS g).1 = refill g a b t)
    ∧ lookupA (fpOf un g) (normalizeGoalStep nc sc un anet oN oS g).2.1
        = some ((normalizeGoalStep nc sc un anet oN oS g).1.focus_grades,
            (normalizeGoalStep nc sc un anet oN oS g).1.focus_student_group)
    ∧ lookupA g.strategies (normalizeGoalStep nc sc un anet oN oS g).2.2.1
        = some (normalizeGoalStep nc sc un anet oN oS g).1.strategies_summarized := by
  refine ⟨⟨_, _, _, rfl⟩, ?_, ?_⟩
  · cases h : lookupA (fpOf un g) nc with
    | some w =>
        have h' : lookupA (un, g.focus_group, g.focus_area, g.outcome) nc
            = some w := h
        have hn : normalize_focus_group nc un g.focus_group g.focus_area
            g.outcome anet (oN (fpOf un g)) = (w, 0) := by
          simp [normalize_focus_group, h']
        simp [normalizeGoalStep, h, hn, refill]
    | none =>
        simp only [normalizeGoalStep, h]
        rw [lookupA_append_of_none _ _ _ h]
        simp [lookupA, refill]
  · cases h : lookupA g.strategies sc with
    | some w =>
        have hn : summarize_strategies sc g.strategies anet (oS g.strategies)
            = (w, 0) := by
          simp [summarize_strategies, h]
        simp [normalizeGoalStep, h, hn, refill]
    | none =>
        simp only [normalizeGoalStep, h]
        rw [lookupA_append_of_none _ _ _ h]
        simp [lookupA, refill]

/-- Normalizing the goals of a unit only appends to the caches. -/
theorem normalizeGoals_mono (un : String) (anet : Bool)
    (oN : Fp → Except Unit (String × String))
    (oS : List Strategy → Except Unit String) :
    ∀ (gs : List GoalRecord) (nc : NormCache) (sc : SummCache),
      (∀ (k : Fp) (v : String × String), lookupA k nc = some v →
        lookupA k (normalizeGoals nc sc un anet oN oS gs).2.1 = some v)
      ∧ (∀ (k : List Strategy) (v : String), lookupA k sc = some v →
        lookupA k (normalizeGoals nc sc un anet oN oS gs).2.2.1 = some v) := by
  intro gs
  induction gs with
  | nil =>
      intro nc sc
      exact ⟨fun k v hv => hv, fun k v hv => hv⟩
  | cons g gs ih =>
      intro nc sc
      constructor
      · intro k v hv
        have h1 := (normalizeGoalStep_mono nc sc un anet oN oS g).1 k v hv
        have h2 := (ih (normalizeGoalStep nc sc un anet oN oS g).2.1
          (normalizeGoalStep nc sc un anet oN oS g).2.2.1).1 k v h1
        simpa [normalizeGoals] using h2
      · intro k v hv
        have h1 := (normalizeGoalStep_mono nc sc un anet oN oS g).2 k v hv
        have h2 := (ih (normalizeGoalStep nc sc un anet oN oS g).2.1
          (normalizeGoalStep nc sc un anet oN oS g).2.2.1).2 k v h1
        simpa [normalizeGoals] using h2

/-- After normalizing the goals of a unit, every produced goal is its raw
goal with the classifier-derived fields filled, and the final caches resolve
its fingerprint and strategy key to exactly the stored values. -/
theorem normalizeGoals_covers (un : String) (anet : Bool)
    (oN : Fp → Except Unit (String × String))
    (oS : List Strategy → Except Unit String) :
    ∀ (gs : List GoalRecord) (nc : NormCache) (sc : SummCache),
      List.Forall₂ (fun g g' =>
        (∃ a b t, g' = refill g a b t)
        ∧ lookupA (fpOf un g') (normalizeGoals nc sc un anet oN oS gs).2.1
            = some (g'.focus_grades, g'.focus_student_group)
        ∧ lookupA g'.strategies (normalizeGoals nc sc un anet oN oS gs).2.2.1
            = some g'.strategies_summarized)
        gs (normalizeGoals nc sc un anet oN oS gs).1 := by
  intro gs
  induction gs with
  | nil => intro nc sc; exact List.Forall₂.nil
  | cons g gs ih =>
      intro nc sc
      have hstep := normalizeGoalStep_covers nc sc un anet oN oS g
      obtain ⟨⟨a, b, t, hshape⟩, hN, hS⟩ := hstep
      simp only [normalizeGoals]
      refine List.Forall₂.cons ?_ ?_
      · refine ⟨⟨a, b, t, hshape⟩, ?_, ?_⟩
        · have := (normalizeGoals_mono un anet oN oS gs
            (normalizeGoalStep nc sc un anet oN oS g).2.1
            (normalizeGoalStep nc sc un anet oN oS g).2.2.1).1 _ _ hN
          rw [hshape, fpOf_refill] at *
          exact this
        · have := (normalizeGoals_mono un anet oN oS gs
            (normalizeGoalStep nc sc un anet oN oS g).2.1
            (normalizeGoalStep nc sc un anet oN oS g).2.2.1).2 _ _ hS
          rw [hshape] at *
          exact this
      · exact ih (normalizeGoalStep nc sc un anet oN oS g).2.1
          (normalizeGoalStep nc sc un anet oN oS g).2.2.1

/-- Replay: when every goal fingerprint and strategy key already resolves in
the caches to the values of a previously produced record list, normalizing
is the identity on the caches, reproduces that list, and makes zero
classifier calls. -/
theorem normalizeGoals_allhit (un : String) (anet : Bool)
    (oN : Fp → Except Unit (String × String))
    (oS : List Strategy → Except Unit String)
    (nc : NormCache) (sc : SummCache) :
    ∀ {gs fills : List GoalRecord},
      List.Forall₂ (fun g fill =>
        fill = refill g fill.focus_grades fill.focus_student_group
          fill.strategies_summarized
        ∧ lookupA (fpOf un g) nc
            = some (fill.focus_grades, fill.focus_student_group)
        ∧ lookupA g.strategies sc = some fill.strategies_summarized) gs fills →
      normalizeGoals nc sc un anet oN oS gs = (fills, nc, sc, 0) := by
  intro gs fills h
  induction h with
  | nil => rfl
  | @cons g fill gs fills hab htail ih =>
      obtain ⟨hfill, hnorm, hsumm⟩ := hab
      have hnorm' : lookupA (un, g.focus_group, g.focus_area, g.outcome) nc
          = some (fill.focus_grades, fill.focus_student_group) := hnorm
      have h1 : normalize_focus_group nc un g.focus_group g.focus_area
          g.outcome anet (oN (fpOf un g))
          = ((fill.focus_grades, fill.focus_student_group), 0) := by
        simp [normalize_focus_group, hnorm']
      have h2 : summarize_strategies sc g.strategies anet (oS g.strategies)
          = (fill.strategies_summarized, 0) := by
        simp [summarize_strategies, hsumm]
      have hstep : normalizeGoalStep nc sc un anet oN oS g
          = (refill g fill.focus_grades fill.focus_student_group
              fill.strategies_summarized, nc, sc, 0) := by
        simp [normalizeGoalStep, hnorm, hsumm, h1, h2]
      rw [← hfill] at hstep
      simp [normalizeGoals, hstep, ih]





/-- A full run only appends to the caches. -/
theorem runUnits_mono (anet : Bool)
    (oN : Fp → Except Unit (String × String))
    (oS : List Strategy → Except Unit String)
    (provider : Nat → List RawTableBlock) :
    ∀ (units : List UnitInput) (nc : NormCache) (sc : SummCache),
      (∀ (k : Fp) (v : String × String), lookupA k nc = some v →
        lookupA k (runUnits nc sc anet oN oS provider units).2.1 = some v)
      ∧ (∀ (k : List Strategy) (v : String), lookupA k sc = some v →
        lookupA k (runUnits nc sc anet oN oS provider units).2.2.1 = some v) := by
  intro units
  induction units with
  | nil => intro nc sc; exact ⟨fun k v hv => hv, fun k v hv => hv⟩
  | cons u us ih =>
      intro nc sc
      constructor
      · intro k v hv
        have h1 := (normalizeGoals_mono u.name anet oN oS
          (extractSchool u provider).goals nc sc).1 k v hv
        have h2 := (ih
          (normalizeGoals nc sc u.name anet oN oS (extractSchool u provider).goals).2.1
          (normalizeGoals nc sc u.name anet oN oS (extractSchool u provider).goals).2.2.1).1
          k v h1
        simpa [runUnits] using h2
      · intro k v hv
        have h1 := (normalizeGoals_mono u.name anet oN oS
          (extractSchool u provider).goals nc sc).2 k v hv
        have h2 := (ih
          (normalizeGoals nc sc u.name anet oN oS (extractSchool u provider).goals).2.1
          (normalizeGoals nc sc u.name anet oN oS (extractSchool u provider).goals).2.2.1).2
          k v h1
        simpa [runUnits] using h2

/-- After a full run, each produced SchoolRecord carries its unit name and
level, each of its goals is the raw extracted goal with the
classifier-derived fields filled, and the final caches resolve every goal
fingerprint and strategy key to exactly the stored values. -/
theorem runUnits_covers (anet : Bool)
    (oN : Fp → Except Unit (String × String))
    (oS : List Strategy → Except Unit String)
    (provider : Nat → List RawTableBlock) :
    ∀ (units : List UnitInput) (nc : NormCache) (sc : SummCache),
      List.Forall₂ (fun u s =>
        s.name = u.name ∧ s.level = u.level
        ∧ List.Forall₂ (fun graw g =>
            (∃ a b t, g = refill graw a b t)
            ∧ lookupA (fpOf u.name g)
                (runUnits nc sc anet oN oS provider units).2.1
                = some (g.focus_grades, g.focus_student_group)
            ∧ lookupA g.strategies
                (runUnits nc sc anet oN oS provider units).2.2.1
                = some g.strategies_summarized)
          (extractSchool u provider).goals s.goals)
        units (runUnits nc sc anet oN oS provider units).1 := by
  intro units
  induction units with
  | nil => intro nc sc; exact List.Forall₂.nil
  | cons u us ih =>
      intro nc sc
      simp only [runUnits]
      refine List.Forall₂.cons ⟨rfl, rfl, ?_⟩ ?_
      · have hcov := normalizeGoals_covers u.name anet oN oS
          (extractSchool u provider).goals nc sc
        refine List.Forall₂.imp ?_ hcov
        intro graw g hP
        obtain ⟨hshape, hN, hS⟩ := hP
        refine ⟨hshape, ?_, ?_⟩
        · exact (runUnits_mono anet oN oS provider us _ _).1 _ _ hN
        · exact (runUnits_mono anet oN oS provider us _ _).2 _ _ hS
      · exact ih
          (normalizeGoals nc sc u.name anet oN oS (extractSchool u provider).goals).2.1
          (normalizeGoals nc sc u.name anet oN oS (extractSchool u provider).goals).2.2.1

/-- Replay at run level: when the caches already resolve every goal
fingerprint and strategy key of a previously produced record list, a run
reproduces that list exactly, leaves the caches untouched and makes zero
classifier calls. -/
theorem runUnits_allhit (anet : Bool)
    (oN : Fp → Except Unit (String × String))
    (oS : List Strategy → Except Unit String)
    (provider : Nat → List RawTableBlock)
    (nc : NormCache) (sc : SummCache) :
    ∀ {units : List UnitInput} {fills : List SchoolRecord},
      List.Forall₂ (fun u s =>
        s.name = u.name ∧ s.level = u.level
        ∧ List.Forall₂ (fun graw g =>
            g = refill graw g.focus_grades g.focus_student_group
              g.strategies_summarized
            ∧ lookupA (fpOf u.name graw) nc
                = some (g.focus_grades, g.focus_student_group)
            ∧ lookupA graw.strategies sc = some g.strategies_summarized)
          (extractSchool u provider).goals s.goals)
        units fills →
      runUnits nc sc anet oN oS provider units = (fills, nc, sc, 0) := by
  intro units fills h
  induction h with
  | nil => rfl
  | @cons u s us fills hus htail ih =>
      obtain ⟨hname, hlevel, hgoals⟩ := hus
      have hr : normalizeGoals nc sc u.name anet oN oS
          (extractSchool u provider).goals = (s.goals, nc, sc, 0) :=
        normalizeGoals_allhit u.name anet oN oS nc sc hgoals
      have hhead : ({ extractSchool u provider with goals := s.goals }
          : SchoolRecord) = s := by
        rcases s with ⟨sn, sl, sg⟩
        simp only at hname hlevel
        subst hname
        subst hlevel
        rfl
      simp [runUnits, hr, hhead, ih]

/-- Claim C6: with identical RawTableBlocks (the same grid provider and unit
index) and a warm normalization cache rebuilt from the unchanged persisted
output of the previous run, a second run with `allow_network` false
reproduces the previous SchoolRecords exactly — byte-identical structured
output — and makes zero classifier calls. -/
theorem warm_cache_idempotent :
    ∀ (units : List UnitInput) (provider : Nat → List RawTableBlock)
      (nc0 : NormCache) (sc0 : SummCache) (anet : Bool)
      (oN oN' : Fp → Except Unit (String × String))
      (oS oS' : List Strategy → Except Unit String),
      runUnits
          (buildNormCache (runUnits nc0 sc0 anet oN oS provider units).1)
          (buildSummCache (runUnits nc0 sc0 anet oN oS provider units).1)
          false oN' oS' provider units
        = ((runUnits nc0 sc0 anet oN oS provider units).1,
           buildNormCache (runUnits nc0 sc0 anet oN oS provider units).1,
           buildSummCache (runUnits nc0 sc0 anet oN oS provider units).1, 0)
      ∧ structuredOutput
          (runUnits
            (buildNormCache (runUnits nc0 sc0 anet oN oS provider units).1)
            (buildSummCache (runUnits nc0 sc0 anet oN oS provider units).1)
            false oN' oS' provider units).1
        = structuredOutput (runUnits nc0 sc0 anet oN oS provider units).1 := by
  intro units provider nc0 sc0 anet oN oN' oS oS'
  have hcov := runUnits_covers anet oN oS provider units nc0 sc0
  have hglobN : ∀ p ∈ buildNormCache (runUnits nc0 sc0 anet oN oS provider units).1,
      lookupA p.1 (runUnits nc0 sc0 anet oN oS provider units).2.1 = some p.2 := by
    intro p hp
    obtain ⟨s, hs, g, hg, rfl⟩ := mem_buildNormCache.1 hp
    obtain ⟨u, hname, hlevel, hinner⟩ := forall2_exists_left hcov s hs
    obtain ⟨graw, hshape, hN, hS⟩ := forall2_exists_left hinner g hg
    rw [hname]
    exact hN
  have hglobS : ∀ p ∈ buildSummCache (runUnits nc0 sc0 anet oN oS provider units).1,
      lookupA p.1 (runUnits nc0 sc0 anet oN oS provider units).2.2.1 = some p.2 := by
    intro p hp
    obtain ⟨s, hs, g, hg, rfl⟩ := mem_buildSummCache.1 hp
    obtain ⟨u, hname, hlevel, hinner⟩ := forall2_exists_left hcov s hs
    obtain ⟨graw, hshape, hN, hS⟩ := forall2_exists_left hinner g hg
    exact hS
  have hconsN := lookupA_of_consistent
    (fun k => lookupA k (runUnits nc0 sc0 anet oN oS provider units).2.1)
    (buildNormCache (runUnits nc0 sc0 anet oN oS provider units).1) hglobN
  have hconsS := lookupA_of_consistent
    (fun k => lookupA k (runUnits nc0 sc0 anet oN oS provider units).2.2.1)
    (buildSummCache (runUnits nc0 sc0 anet oN oS provider units).1) hglobS
  have hmain : runUnits
      (buildNormCache (runUnits nc0 sc0 anet oN oS provider units).1)
      (buildSummCache (runUnits nc0 sc0 anet oN oS provider units).1)
      false oN' oS' provider units
      = ((runUnits nc0 sc0 anet oN oS provider units).1,
         buildNormCache (runUnits nc0 sc0 anet oN oS provider units).1,
         buildSummCache (runUnits nc0 sc0 anet oN oS provider units).1, 0) := by
    apply runUnits_allhit
    refine forall2_imp_mem hcov (fun b hb => hb) ?_
    intro u s hP hs
    obtain ⟨hname, hlevel, hinner⟩ := hP
    refine ⟨hname, hlevel, ?_⟩
    refine forall2_imp_mem hinner (fun g hg => hg) ?_
    intro graw g hPg hg
    obtain ⟨⟨a, b, t, rfl⟩, -, -⟩ := hPg
    refine ⟨rfl, ?_, ?_⟩
    · have hm : ((fpOf s.name (refill graw a b t),
          ((refill graw a b t).focus_grades,
           (refill graw a b t).focus_student_group))
          : Fp × (String × String))
          ∈ buildNormCache (runUnits nc0 sc0 anet oN oS provider units).1 :=
        mem_buildNormCache.2 ⟨s, hs, refill graw a b t, hg, rfl⟩
      have hl := hconsN _ hm
      rw [hname] at hl
      exact hl
    · have hm : (((refill graw a b t).strategies,
          (refill graw a b t).strategies_summarized)
          : List Strategy × String)
          ∈ buildSummCache (runUnits nc0 sc0 anet oN oS provider units).1 :=
        mem_buildSummCache.2 ⟨s, hs, refill graw a b t, hg, rfl⟩
      exact hconsS _ hm
  refine ⟨hmain, ?_⟩
  rw [hmain]

end SipDashboard
